import Mathlib

/-!
Verification development for the call-recording filename correlation engine
of the s3explorer repository (backend/app/file_parser.py and the related-files
endpoint of backend/app/main.py).

The embedding models Python strings as Lean `String`s viewed through their
character lists (`String.data`); `str.split(sep)` for a one-character
separator is modelled by `splitCh` below, which reproduces Python's
semantics exactly (always non-empty result, empty pieces kept,
`"".split(c) == [""]`).  Non-ASCII decimal digits, which CPython's
`strptime` would also accept in numeric fields, are outside the scope of
this model: digits are the ASCII characters 0-9.
-/

/-- Python `s.split(sep)` for a single-character separator, on the
character list.  Matches CPython: the result is always non-empty and keeps
empty pieces. -/
def splitCh (sep : Char) : List Char → List (List Char)
  | [] => [[]]
  | c :: cs =>
    if c = sep then [] :: splitCh sep cs
    else
      match splitCh sep cs with
      | [] => [[c]]
      | p :: ps => (c :: p) :: ps

/-- Python `s.split(sep)` on strings. -/
def pySplit (sep : Char) (s : String) : List String :=
  (splitCh sep s.data).map String.mk

/-- Python `sub in s` for a one-character `sub`. -/
def pyContains (s : String) (c : Char) : Bool := decide (c ∈ s.data)

/-- Python `s.startswith(p)`. -/
def pyStartsWith (s p : String) : Bool := p.data.isPrefixOf s.data

/-- A parsed calendar instant, as produced by `datetime.strptime` with the
format `%Y-%m-%dT%H:%M:%SZ` (the code only ever re-serializes it with
`isoformat()`, so the six components are all that matters). -/
structure PyDateTime where
  year : Nat
  month : Nat
  day : Nat
  hour : Nat
  minute : Nat
  second : Nat
deriving DecidableEq, Repr

/-- Longest leading run of ASCII digits, with the rest of the input. -/
def takeDigits : List Char → List Char × List Char
  | [] => ([], [])
  | c :: cs =>
    if c.isDigit then
      let r := takeDigits cs
      (c :: r.1, r.2)
    else ([], c :: cs)

/-- Numeric value of a digit run. -/
def digitsToNat (cs : List Char) : Nat :=
  cs.foldl (fun a c => a * 10 + (c.toNat - 48)) 0

/-- CPython strptime numeric directive for a field with 1- or 2-digit
representations: the regexes for %m, %d, %H, %M, %S accept exactly the one-
or two-digit strings whose value lies in the directive's range, and since
the following literal in this format is never a digit, a greedy digit run
must be consumed whole. -/
def matchField (lo hi : Nat) (cs : List Char) : Option (Nat × List Char) :=
  let t := takeDigits cs
  if t.1.length = 0 ∨ t.1.length > 2 then none
  else if lo ≤ digitsToNat t.1 ∧ digitsToNat t.1 ≤ hi then some (digitsToNat t.1, t.2)
  else none

/-- CPython strptime %Y: exactly four digits. -/
def matchYear (cs : List Char) : Option (Nat × List Char) :=
  let t := takeDigits cs
  if t.1.length = 4 then some (digitsToNat t.1, t.2) else none

/-- A literal character of the strptime format.  CPython compiles the
format with IGNORECASE, so the letters T and Z also match t and z. -/
def matchLit (lit : Char) : List Char → Option (List Char)
  | [] => none
  | c :: cs => if c.toLower = lit.toLower then some cs else none

def isLeapYear (y : Nat) : Bool :=
  (y % 4 = 0 && y % 100 ≠ 0) || (y % 400 = 0)

def daysInMonth (y m : Nat) : Nat :=
  if m = 2 then (if isLeapYear y then 29 else 28)
  else if m = 4 ∨ m = 6 ∨ m = 9 ∨ m = 11 then 30
  else 31

/-- Models `datetime.strptime(s, "%Y-%m-%dT%H:%M:%SZ")`, returning `none`
where CPython raises.  The directive regexes admit unpadded one-digit
month/day/hour/minute/second values and seconds up to 61; the datetime
constructor then rejects year 0, days beyond the month's length and
seconds above 59. -/
def strptime_iso (s : String) : Option PyDateTime := do
  let (y, r1) ← matchYear s.data
  let r2 ← matchLit '-' r1
  let (mo, r3) ← matchField 1 12 r2
  let r4 ← matchLit '-' r3
  let (d, r5) ← matchField 1 31 r4
  let r6 ← matchLit 'T' r5
  let (h, r7) ← matchField 0 23 r6
  let r8 ← matchLit ':' r7
  let (mi, r9) ← matchField 0 59 r8
  let r10 ← matchLit ':' r9
  let (se, r11) ← matchField 0 61 r10
  let r12 ← matchLit 'Z' r11
  if r12 = [] ∧ 1 ≤ y ∧ d ≤ daysInMonth y mo ∧ se ≤ 59 then
    some ⟨y, mo, d, h, mi, se⟩
  else none

/-- The `file_type` values produced by `parse_call_file_name`. -/
inductive FileType where
  | audio
  | transcription
deriving DecidableEq, Repr

/-- The metadata dictionary returned by `parse_call_file_name`
(file_parser.py).  In the Python dict the timestamp is stored as
`timestamp.isoformat() if timestamp else None`; the model keeps the parsed
instant itself, which carries the same information (a `datetime` is always
truthy, so the guard is exactly a None test). -/
structure CallMetadata where
  file_type : FileType
  call_uuid : Option String
  file_uuid : String
  leg : Option String
  phone_number : Option String
  timestamp : Option PyDateTime
  date_path : String
  extension : String
deriving DecidableEq, Repr

/-- Leaf name of a key: `file_key.split('/')[-1]` (file_parser.py line 27). -/
def leafOf (file_key : String) : String :=
  (pySplit '/' file_key).getLastD ""

/-- The `~`-fields of a key's leaf: `filename.split('~')`
(file_parser.py line 33). -/
def fieldsOf (file_key : String) : List String :=
  pySplit '~' (leafOf file_key)

/-- File uuid of the final field: `file_uuid_with_ext.split('.')[0]`
(file_parser.py lines 45 and 83). -/
def file_uuid_of (s : String) : String :=
  (pySplit '.' s).headD ""

/-- Extension of the final field:
`'.' + file_uuid_with_ext.split('.')[-1] if '.' in file_uuid_with_ext else ''`
(file_parser.py lines 46 and 84). -/
def extension_of (s : String) : String :=
  if pyContains s '.' then "." ++ (pySplit '.' s).getLastD "" else ""

/-- Leg letter of the 4th audio field (file_parser.py lines 49-53). -/
def leg_letter_of (leg : String) : Option String :=
  if pyStartsWith leg "2A" || pyStartsWith leg "A" then some "A"
  else if pyStartsWith leg "2B" || pyStartsWith leg "B" then some "B"
  else none

/-- Date path of a key:
`'/'.join(file_key.split('/')[:-1]) if '/' in file_key else ''`
(file_parser.py lines 64 and 94). -/
def date_path_of (file_key : String) : String :=
  if pyContains file_key '/' then
    String.intercalate "/" (pySplit '/' file_key).dropLast
  else ""

/-- Model of `parse_call_file_name` (file_parser.py lines 15-113).  The
body of the Python function cannot raise for a string argument — every
list index is guarded by the length test and the only fallible call,
`datetime.strptime`, sits inside its own `try`/`except` — so the outer
`try`/`except` that maps exceptions to `None` is dead code and the model
is a total function. -/
def parse_call_file_name (file_key : String) : Option CallMetadata :=
  let filename := leafOf file_key
  if '~' ∈ filename.data then
    let parts := fieldsOf file_key
    if parts.length = 5 then
      some
        { file_type := FileType.audio
          call_uuid := some (parts.getD 1 "")
          file_uuid := file_uuid_of (parts.getD 4 "")
          leg := leg_letter_of (parts.getD 3 "")
          phone_number := some (parts.getD 2 "")
          timestamp := strptime_iso (parts.getD 0 "")
          date_path := date_path_of file_key
          extension := extension_of (parts.getD 4 "") }
    else if parts.length = 2 then
      some
        { file_type := FileType.transcription
          call_uuid := none
          file_uuid := file_uuid_of (parts.getD 1 "")
          leg := none
          phone_number := none
          timestamp := strptime_iso (parts.getD 0 "")
          date_path := date_path_of file_key
          extension := extension_of (parts.getD 1 "") }
    else none
  else none

/-- Model of `is_call_file` (file_parser.py lines 116-120). -/
def is_call_file (file_key : String) : Bool :=
  (parse_call_file_name file_key).isSome

/-- A listed object together with its parsed metadata, as assembled by the
listing layer in main.py (`call_metadata` is `None` for keys that are not
call files). -/
structure S3File where
  key : String
  call_metadata : Option CallMetadata
deriving DecidableEq, Repr

/-- The result dictionary of `find_related_files`. -/
structure RelatedFiles where
  leg_a : Option S3File
  leg_b : Option S3File
  transcription : Option S3File
deriving DecidableEq, Repr

/-- One iteration of the loop of `find_related_files` (file_parser.py
lines 141-156): a matching candidate is written into its slot
unconditionally, overwriting any earlier occupant.  The `call_uuid`
argument is an `Option String` because main.py passes
`metadata.get("call_uuid")`, which is `None` for a transcription target;
Python's `==` on the optional values is the decidable equality on
`Option String`. -/
def find_related_step (call_uuid : Option String) (file_uuid : String)
    (related : RelatedFiles) (file : S3File) : RelatedFiles :=
  match file.call_metadata with
  | none => related
  | some metadata =>
    let r1 :=
      if metadata.file_type = FileType.audio ∧ metadata.call_uuid = call_uuid then
        if metadata.leg = some "A" then { related with leg_a := some file }
        else if metadata.leg = some "B" then { related with leg_b := some file }
        else related
      else related
    if metadata.file_type = FileType.transcription ∧ metadata.file_uuid = file_uuid then
      { r1 with transcription := some file }
    else r1

/-- Model of `find_related_files` (file_parser.py lines 123-158). -/
def find_related_files (call_uuid : Option String) (file_uuid : String)
    (all_files : List S3File) : RelatedFiles :=
  all_files.foldl (find_related_step call_uuid file_uuid) ⟨none, none, none⟩

/-- The one failure the related-files operation itself signals: main.py
lines 765-767 raise HTTP 400 ("Arquivo não é um arquivo de chamada
válido") exactly when the target key fails to parse. -/
inductive RelatedError where
  | invalidCallFile
deriving DecidableEq, Repr

/-- Model of the core of `get_related_files` (main.py lines 764-825),
after the bucket lookup has produced the candidate key pool: parse the
target (failure is the InvalidCallFile error), attach
`parse_call_file_name(f.key) if is_call_file(f.key) else None` — which is
just `parse_call_file_name f.key` — to every candidate, and run the same
slot-filling loop as `find_related_files` with the target's call_uuid and
file_uuid. -/
def get_related_files_core (file_key : String) (pool : List String) :
    Except RelatedError (CallMetadata × RelatedFiles) :=
  match parse_call_file_name file_key with
  | none => Except.error RelatedError.invalidCallFile
  | some metadata =>
    let files := pool.map (fun k => S3File.mk k (parse_call_file_name k))
    Except.ok (metadata, find_related_files metadata.call_uuid metadata.file_uuid files)

/-- Modelled from the spec's words, for comparison in C6: the fixed
timestamp pattern `YYYY-MM-DDTHH:MM:SSZ` — four digits, a dash, two
digits, a dash, two digits, the letter T, two digits, a colon, two
digits, a colon, two digits, the letter Z. -/
def spec_strict_pattern (s : String) : Bool :=
  match s.data with
  | [y1, y2, y3, y4, c1, m1, m2, c2, d1, d2, t, h1, h2, c3, n1, n2, c4, s1, s2, z] =>
    y1.isDigit && y2.isDigit && y3.isDigit && y4.isDigit && c1 == '-' &&
    m1.isDigit && m2.isDigit && c2 == '-' && d1.isDigit && d2.isDigit &&
    t == 'T' && h1.isDigit && h2.isDigit && c3 == ':' && n1.isDigit &&
    n2.isDigit && c4 == ':' && s1.isDigit && s2.isDigit && z == 'Z'
  | _ => false

/-- A candidate that the audio branch of the loop files under `leg_a`. -/
def isAudioMatchA (call_uuid : Option String) (f : S3File) : Bool :=
  match f.call_metadata with
  | none => false
  | some m =>
    decide (m.file_type = FileType.audio) && decide (m.call_uuid = call_uuid) &&
      decide (m.leg = some "A")

/-- A candidate that the audio branch of the loop files under `leg_b`. -/
def isAudioMatchB (call_uuid : Option String) (f : S3File) : Bool :=
  match f.call_metadata with
  | none => false
  | some m =>
    decide (m.file_type = FileType.audio) && decide (m.call_uuid = call_uuid) &&
      decide (m.leg = some "B")

/-- A candidate that the transcription branch files under `transcription`. -/
def isTransMatch (file_uuid : String) (f : S3File) : Bool :=
  match f.call_metadata with
  | none => false
  | some m =>
    decide (m.file_type = FileType.transcription) && decide (m.file_uuid = file_uuid)

lemma splitCh_ne_nil (sep : Char) (l : List Char) : splitCh sep l ≠ [] := by
  cases l with
  | nil => simp [splitCh]
  | cons c cs =>
    by_cases h : c = sep
    · simp [splitCh, h]
    · cases hsp : splitCh sep cs with
      | nil => simp [splitCh, h, hsp]
      | cons p ps => simp [splitCh, h, hsp]

lemma splitCh_length (sep : Char) : ∀ l : List Char,
    (splitCh sep l).length = l.count sep + 1 := by
  intro l
  induction l with
  | nil => simp [splitCh]
  | cons c cs ih =>
    by_cases h : c = sep
    · subst h
      simp [splitCh, List.count_cons, ih]
    · cases hsp : splitCh sep cs with
      | nil => exact absurd hsp (splitCh_ne_nil sep cs)
      | cons p ps =>
        rw [hsp] at ih
        simp [splitCh, h, hsp, List.count_cons, Ne.symm h]
        simpa using ih

lemma splitCh_singleton (sep : Char) : ∀ l u, splitCh sep l = [u] → l = u := by
  intro l
  induction l with
  | nil =>
    intro u h
    simp [splitCh] at h
    simp [h]
  | cons c cs ih =>
    intro u h
    by_cases hc : c = sep
    · subst hc
      simp [splitCh] at h
      exact absurd h.2 (splitCh_ne_nil c cs)
    · cases hsp : splitCh sep cs with
      | nil => exact absurd hsp (splitCh_ne_nil sep cs)
      | cons p ps =>
        simp [splitCh, hc, hsp] at h
        obtain ⟨h1, h2⟩ := h
        have := ih p (by rw [hsp, h2])
        rw [← h1, this]

lemma splitCh_pair (sep : Char) : ∀ l u v, splitCh sep l = [u, v] → l = u ++ sep :: v := by
  intro l
  induction l with
  | nil => intro u v h; simp [splitCh] at h
  | cons c cs ih =>
    intro u v h
    by_cases hc : c = sep
    · subst hc
      simp [splitCh] at h
      obtain ⟨h1, h2⟩ := h
      have := splitCh_singleton c cs v h2
      simp [← h1, this]
    · cases hsp : splitCh sep cs with
      | nil => exact absurd hsp (splitCh_ne_nil sep cs)
      | cons p ps =>
        simp [splitCh, hc, hsp] at h
        obtain ⟨h1, h2⟩ := h
        have := ih p v (by rw [hsp, h2])
        rw [← h1, List.cons_append, ← this]

lemma exists_two {α : Type} (l : List α) (h : l.length = 2) : ∃ a b, l = [a, b] := by
  cases l with
  | nil => simp at h
  | cons a t =>
    cases t with
    | nil => simp at h
    | cons b t2 =>
      cases t2 with
      | nil => exact ⟨a, b, rfl⟩
      | cons c t3 => simp at h

lemma exists_five {α : Type} (l : List α) (h : l.length = 5) :
    ∃ a b c d e, l = [a, b, c, d, e] := by
  cases l with
  | nil => simp at h
  | cons a t => cases t with
  | nil => simp at h
  | cons b t2 => cases t2 with
  | nil => simp at h
  | cons c t3 => cases t3 with
  | nil => simp at h
  | cons d t4 => cases t4 with
  | nil => simp at h
  | cons e t5 => cases t5 with
  | nil => exact ⟨a, b, c, d, e, rfl⟩
  | cons f t6 => simp at h

lemma opt_or_none {α : Type} (x : Option α) : x.or none = x := by cases x <;> rfl

lemma opt_or_assoc {α : Type} (x y z : Option α) : (x.or y).or z = x.or (y.or z) := by
  cases x <;> rfl

lemma opt_or_isSome {α : Type} (x y : Option α) (h : x.isSome = true) : x.or y = x := by
  cases x
  · simp at h
  · rfl

lemma getLast?_cons_or {α : Type} (a : α) (l : List α) :
    (a :: l).getLast? = l.getLast?.or (some a) := by
  cases l with
  | nil => rfl
  | cons b bs =>
    rw [List.getLast?_cons_cons]
    refine (opt_or_isSome _ _ ?_).symm
    rw [List.getLast?_isSome]
    simp

lemma mem_of_fields_length (key : String) (n : Nat)
    (h : (fieldsOf key).length = n + 2) : '~' ∈ (leafOf key).data := by
  have hs : (splitCh '~' (leafOf key).data).length = n + 2 := by
    simpa [fieldsOf, pySplit] using h
  rw [splitCh_length] at hs
  have hc : 0 < (leafOf key).data.count '~' := by omega
  exact List.count_pos_iff.mp hc

lemma parse_eq_audio (key t c p lg f : String) (h : fieldsOf key = [t, c, p, lg, f]) :
    parse_call_file_name key =
      some ⟨FileType.audio, some c, file_uuid_of f, leg_letter_of lg, some p,
        strptime_iso t, date_path_of key, extension_of f⟩ := by
  have hmem : '~' ∈ (leafOf key).data := mem_of_fields_length key 3 (by rw [h]; rfl)
  simp [parse_call_file_name, h, hmem, List.getD]

lemma parse_eq_trans (key t f : String) (h : fieldsOf key = [t, f]) :
    parse_call_file_name key =
      some ⟨FileType.transcription, none, file_uuid_of f, none, none,
        strptime_iso t, date_path_of key, extension_of f⟩ := by
  have hmem : '~' ∈ (leafOf key).data := mem_of_fields_length key 0 (by rw [h]; rfl)
  simp [parse_call_file_name, h, hmem, List.getD]

lemma parse_none_of_no_tilde (key : String) (h : '~' ∉ (leafOf key).data) :
    parse_call_file_name key = none := by
  simp [parse_call_file_name, h]

lemma parse_none_of_length (key : String) (h5 : (fieldsOf key).length ≠ 5)
    (h2 : (fieldsOf key).length ≠ 2) : parse_call_file_name key = none := by
  by_cases hmem : '~' ∈ (leafOf key).data
  · simp [parse_call_file_name, hmem, h5, h2]
  · simp [parse_call_file_name, hmem]

lemma parse_some_length (key : String) (m : CallMetadata)
    (h : parse_call_file_name key = some m) :
    (fieldsOf key).length = 5 ∨ (fieldsOf key).length = 2 := by
  by_contra hc
  push_neg at hc
  rw [parse_none_of_length key hc.1 hc.2] at h
  exact Option.noConfusion h

lemma parse_file_type_call_uuid (key : String) (m : CallMetadata)
    (h : parse_call_file_name key = some m) :
    (m.file_type = FileType.audio → ∃ c, m.call_uuid = some c) ∧
    (m.file_type = FileType.transcription → m.call_uuid = none) := by
  rcases parse_some_length key m h with h5 | h2
  · obtain ⟨t, c, p, lg, f, hf⟩ := exists_five _ h5
    rw [parse_eq_audio key t c p lg f hf] at h
    cases h
    exact ⟨fun _ => ⟨c, rfl⟩, fun hft => by simp at hft⟩
  · obtain ⟨t, f, hf⟩ := exists_two _ h2
    rw [parse_eq_trans key t f hf] at h
    cases h
    exact ⟨fun hft => by simp at hft, fun _ => rfl⟩

lemma step_leg_a (cu : Option String) (fu : String) (r : RelatedFiles) (f : S3File) :
    (find_related_step cu fu r f).leg_a =
      if isAudioMatchA cu f = true then some f else r.leg_a := by
  cases hm : f.call_metadata with
  | none => simp [find_related_step, isAudioMatchA, hm]
  | some m =>
    simp only [find_related_step, isAudioMatchA, hm]
    split_ifs <;> simp_all

lemma step_leg_b (cu : Option String) (fu : String) (r : RelatedFiles) (f : S3File) :
    (find_related_step cu fu r f).leg_b =
      if isAudioMatchB cu f = true then some f else r.leg_b := by
  cases hm : f.call_metadata with
  | none => simp [find_related_step, isAudioMatchB, hm]
  | some m =>
    simp only [find_related_step, isAudioMatchB, hm]
    split_ifs <;> simp_all

lemma step_transcription (cu : Option String) (fu : String) (r : RelatedFiles) (f : S3File) :
    (find_related_step cu fu r f).transcription =
      if isTransMatch fu f = true then some f else r.transcription := by
  cases hm : f.call_metadata with
  | none => simp [find_related_step, isTransMatch, hm]
  | some m =>
    simp only [find_related_step, isTransMatch, hm]
    split_ifs <;> simp_all

lemma foldl_leg_a (cu : Option String) (fu : String) : ∀ (files : List S3File) (r : RelatedFiles),
    (files.foldl (find_related_step cu fu) r).leg_a =
      ((files.filter (isAudioMatchA cu)).getLast?).or r.leg_a := by
  intro files
  induction files with
  | nil => intro r; simp
  | cons f fs ih =>
    intro r
    rw [List.foldl_cons, List.filter_cons, ih, step_leg_a]
    by_cases hf : isAudioMatchA cu f = true
    · rw [if_pos hf, if_pos hf, getLast?_cons_or, opt_or_assoc]
      rfl
    · rw [if_neg hf, if_neg hf]

lemma foldl_leg_b (cu : Option String) (fu : String) : ∀ (files : List S3File) (r : RelatedFiles),
    (files.foldl (find_related_step cu fu) r).leg_b =
      ((files.filter (isAudioMatchB cu)).getLast?).or r.leg_b := by
  intro files
  induction files with
  | nil => intro r; simp
  | cons f fs ih =>
    intro r
    rw [List.foldl_cons, List.filter_cons, ih, step_leg_b]
    by_cases hf : isAudioMatchB cu f = true
    · rw [if_pos hf, if_pos hf, getLast?_cons_or, opt_or_assoc]
      rfl
    · rw [if_neg hf, if_neg hf]

lemma foldl_transcription (cu : Option String) (fu : String) :
    ∀ (files : List S3File) (r : RelatedFiles),
    (files.foldl (find_related_step cu fu) r).transcription =
      ((files.filter (isTransMatch fu)).getLast?).or r.transcription := by
  intro files
  induction files with
  | nil => intro r; simp
  | cons f fs ih =>
    intro r
    rw [List.foldl_cons, List.filter_cons, ih, step_transcription]
    by_cases hf : isTransMatch fu f = true
    · rw [if_pos hf, if_pos hf, getLast?_cons_or, opt_or_assoc]
      rfl
    · rw [if_neg hf, if_neg hf]

lemma find_leg_a (cu : Option String) (fu : String) (files : List S3File) :
    (find_related_files cu fu files).leg_a = (files.filter (isAudioMatchA cu)).getLast? := by
  unfold find_related_files
  rw [foldl_leg_a]
  exact opt_or_none _

lemma find_leg_b (cu : Option String) (fu : String) (files : List S3File) :
    (find_related_files cu fu files).leg_b = (files.filter (isAudioMatchB cu)).getLast? := by
  unfold find_related_files
  rw [foldl_leg_b]
  exact opt_or_none _

lemma find_transcription (cu : Option String) (fu : String) (files : List S3File) :
    (find_related_files cu fu files).transcription =
      (files.filter (isTransMatch fu)).getLast? := by
  unfold find_related_files
  rw [foldl_transcription]
  exact opt_or_none _

lemma uuid_ext_of_single_dot (f : String) (h : f.data.count '.' = 1) :
    file_uuid_of f ++ extension_of f = f := by
  have hlen : (splitCh '.' f.data).length = 2 := by rw [splitCh_length, h]
  obtain ⟨u, v, huv⟩ := exists_two _ hlen
  have hf : f.data = u ++ '.' :: v := splitCh_pair '.' f.data u v huv
  have hmem : '.' ∈ f.data := by rw [hf]; simp
  have h1 : file_uuid_of f = String.mk u := by
    simp [file_uuid_of, pySplit, huv]
  have h2 : extension_of f = "." ++ String.mk v := by
    simp [extension_of, pyContains, hmem, pySplit, huv]
  rw [h1, h2]
  apply String.ext
  rw [String.data_append, String.data_append, hf]
  rfl

lemma leg_letter_cases (lg : String) :
    ((pyStartsWith lg "2A" || pyStartsWith lg "A") = true → leg_letter_of lg = some "A") ∧
    ((pyStartsWith lg "2B" || pyStartsWith lg "B") = true → leg_letter_of lg = some "B") ∧
    ((pyStartsWith lg "2A" || pyStartsWith lg "A") = false →
      (pyStartsWith lg "2B" || pyStartsWith lg "B") = false → leg_letter_of lg = none) := by
  refine ⟨fun h => by simp [leg_letter_of, h], fun h => ?_, fun h1 h2 => by
    simp [leg_letter_of, h1, h2]⟩
  have hA : (pyStartsWith lg "2A" || pyStartsWith lg "A") = false := by
    have h2B : ("2B").data = ['2', 'B'] := rfl
    have h1B : ("B").data = ['B'] := rfl
    have h2A : ("2A").data = ['2', 'A'] := rfl
    have h1A : ("A").data = ['A'] := rfl
    simp only [pyStartsWith, h2B, h1B, h2A, h1A] at h ⊢
    cases hl : lg.data with
    | nil => rw [hl] at h; simp [List.isPrefixOf] at h
    | cons a as =>
      rw [hl] at h
      cases has : as with
      | nil =>
        rw [has] at h
        simp [List.isPrefixOf] at h ⊢
        subst h
        decide
      | cons b bs =>
        rw [has] at h
        simp [List.isPrefixOf] at h ⊢
        rcases h with ⟨ha, hb⟩ | ha
        · subst ha; subst hb
          decide
        · subst ha
          exact ⟨fun hx => absurd hx (by decide), by decide⟩
  simp [leg_letter_of, hA, h]

/-- C1 (counterexample): a pool with two Audio candidates that both carry
the target's callUuid and leg A.  Both candidates parse to Audio records
with call_uuid "c1" and leg "A", yet `find_related_files` returns the
candidate encountered SECOND in iteration order in the `leg_a` slot, not
the first — the assignment in the loop overwrites the slot. -/
theorem claim1_counterexample :
    parse_call_file_name "t~c1~555~A~f1.mp3" =
      some ⟨FileType.audio, some "c1", "f1", some "A", some "555", none, "", ".mp3"⟩ ∧
    parse_call_file_name "t~c1~555~A~f2.mp3" =
      some ⟨FileType.audio, some "c1", "f2", some "A", some "555", none, "", ".mp3"⟩ ∧
    (find_related_files (some "c1") "f1"
      [S3File.mk "t~c1~555~A~f1.mp3" (parse_call_file_name "t~c1~555~A~f1.mp3"),
       S3File.mk "t~c1~555~A~f2.mp3" (parse_call_file_name "t~c1~555~A~f2.mp3")]).leg_a =
      some (S3File.mk "t~c1~555~A~f2.mp3" (parse_call_file_name "t~c1~555~A~f2.mp3")) ∧
    S3File.mk "t~c1~555~A~f2.mp3" (parse_call_file_name "t~c1~555~A~f2.mp3") ≠
      S3File.mk "t~c1~555~A~f1.mp3" (parse_call_file_name "t~c1~555~A~f1.mp3") := by
  decide

/-- C1 (amended): the tie policy is last-seen-wins, not first-seen-wins.
For every target call_uuid/file_uuid and every candidate pool, each slot of
`find_related_files` holds exactly the LAST candidate in iteration order
that matches that slot (and is absent when no candidate matches); earlier
matches are silently overwritten, and ties are still not reported as a
conflict.  The same holds for the transcription slot. -/
theorem find_related_files_last_seen_wins (cu : Option String) (fu : String)
    (files : List S3File) :
    (find_related_files cu fu files).leg_a = (files.filter (isAudioMatchA cu)).getLast? ∧
    (find_related_files cu fu files).leg_b = (files.filter (isAudioMatchB cu)).getLast? ∧
    (find_related_files cu fu files).transcription =
      (files.filter (isTransMatch fu)).getLast? :=
  ⟨find_leg_a cu fu files, find_leg_b cu fu files, find_transcription cu fu files⟩

/-- C2 (counterexample): a key whose final `~`-field contains two dots.
The key parses, but concatenating the returned extension after the
returned fileUuid gives "x.mp3", which is not the final field "x.y.mp3":
the middle segment is dropped, so the split does not round-trip for every
field with at least one dot. -/
theorem claim2_counterexample :
    parse_call_file_name "t~x.y.mp3" =
      some ⟨FileType.transcription, none, "x", none, none, none, "", ".mp3"⟩ ∧
    (fieldsOf "t~x.y.mp3").getLastD "" = "x.y.mp3" ∧
    ("x" ++ ".mp3" : String) ≠ "x.y.mp3" := by
  decide

/-- C2 (amended): the round-trip holds exactly for accepted keys whose
final `~`-field contains exactly one dot: there the returned fileUuid
followed by the returned extension reconstructs the final field.  (With
two or more dots the segments between the first and last dot are lost.) -/
theorem claim2_roundtrip_single_dot (key : String) (m : CallMetadata)
    (h : parse_call_file_name key = some m)
    (hdot : ((fieldsOf key).getLastD "").data.count '.' = 1) :
    m.file_uuid ++ m.extension = (fieldsOf key).getLastD "" := by
  rcases parse_some_length key m h with h5 | h2
  · obtain ⟨t, c, p, lg, f, hf⟩ := exists_five _ h5
    rw [parse_eq_audio key t c p lg f hf] at h
    cases h
    rw [hf] at hdot ⊢
    simp only [List.getLastD] at hdot ⊢
    exact uuid_ext_of_single_dot f (by simpa using hdot)
  · obtain ⟨t, f, hf⟩ := exists_two _ h2
    rw [parse_eq_trans key t f hf] at h
    cases h
    rw [hf] at hdot ⊢
    simp only [List.getLastD] at hdot ⊢
    exact uuid_ext_of_single_dot f (by simpa using hdot)

/-- Witness for C2: the single-dot round-trip evaluated on a concrete
transcription key. -/
theorem claim2_roundtrip_single_dot_witness :
    ("u" ++ ".mp3" : String) = (fieldsOf "t~u.mp3").getLastD "" :=
  claim2_roundtrip_single_dot "t~u.mp3"
    ⟨FileType.transcription, none, "u", none, none, none, "", ".mp3"⟩
    (by decide) (by decide)

/-- C3: `parse_call_file_name` classifies a key solely by the `~`-field
count of its final path segment: exactly 5 fields always yields an Audio
record, exactly 2 fields always yields a Transcription record, every
other count yields none, and a leaf without `~` is never a call file. -/
theorem claim3_classification_by_field_count (key : String) :
    ((fieldsOf key).length = 5 →
      ∃ m, parse_call_file_name key = some m ∧ m.file_type = FileType.audio) ∧
    ((fieldsOf key).length = 2 →
      ∃ m, parse_call_file_name key = some m ∧ m.file_type = FileType.transcription) ∧
    ((fieldsOf key).length ≠ 5 → (fieldsOf key).length ≠ 2 →
      parse_call_file_name key = none) ∧
    ('~' ∉ (leafOf key).data → is_call_file key = false) := by
  refine ⟨fun h5 => ?_, fun h2 => ?_, parse_none_of_length key, fun h => ?_⟩
  · obtain ⟨t, c, p, lg, f, hf⟩ := exists_five _ h5
    exact ⟨_, parse_eq_audio key t c p lg f hf, rfl⟩
  · obtain ⟨t, f, hf⟩ := exists_two _ h2
    exact ⟨_, parse_eq_trans key t f hf, rfl⟩
  · simp [is_call_file, parse_none_of_no_tilde key h]

/-- Witness for C3: the four classification cases evaluated on concrete
keys with 5, 2, 3 and 1 `~`-fields. -/
theorem claim3_witness :
    (∃ m, parse_call_file_name "t~c~p~l~f.mp3" = some m ∧ m.file_type = FileType.audio) ∧
    (∃ m, parse_call_file_name "t~f.json" = some m ∧ m.file_type = FileType.transcription) ∧
    parse_call_file_name "a~b~c" = none ∧
    is_call_file "notes.txt" = false :=
  ⟨(claim3_classification_by_field_count "t~c~p~l~f.mp3").1 (by decide),
   (claim3_classification_by_field_count "t~f.json").2.1 (by decide),
   (claim3_classification_by_field_count "a~b~c").2.2.1 (by decide) (by decide),
   (claim3_classification_by_field_count "notes.txt").2.2.2 (by decide)⟩

/-- C4: the related-files operation fails exactly when the target key is
not a recognized call file, and then with InvalidCallFile (main.py maps it
to HTTP 400); no candidate pool can cause a failure — unparseable
candidates are skipped — and an empty pool yields all three slots absent
without error. -/
theorem claim4_error_iff_invalid_target (key : String) (pool : List String) :
    (get_related_files_core key pool = Except.error RelatedError.invalidCallFile ↔
      is_call_file key = false) ∧
    (is_call_file key = true →
      ∃ m, get_related_files_core key [] =
        Except.ok (m, RelatedFiles.mk none none none)) := by
  constructor
  · constructor
    · intro he
      cases hp : parse_call_file_name key with
      | none => simp [is_call_file, hp]
      | some m =>
        rw [get_related_files_core] at he
        rw [hp] at he
        simp at he
    · intro hf
      have hp : parse_call_file_name key = none := by
        rcases hpe : parse_call_file_name key with _ | m
        · rfl
        · rw [is_call_file, hpe] at hf
          simp at hf
      simp [get_related_files_core, hp]
  · intro ht
    rw [is_call_file] at ht
    obtain ⟨m, hp⟩ := Option.isSome_iff_exists.mp ht
    exact ⟨m, by simp [get_related_files_core, hp, find_related_files]⟩

/-- Witness for C4: a valid transcription target against the empty pool
resolves without error to three absent slots. -/
theorem claim4_witness :
    ∃ m, get_related_files_core "t~u.json" [] =
      Except.ok (m, RelatedFiles.mk none none none) :=
  (claim4_error_iff_invalid_target "t~u.json" ["garbage", "a~b~c"]).2 (by decide)

/-- C5: for every 5-field Audio key, the leg of the returned metadata is
determined by the prefix of the 4th `~`-field: a value beginning with "2A"
or "A" gives leg A, a value beginning with "2B" or "B" gives leg B, and
any other value (the empty string included) gives an absent leg, without
error. -/
theorem claim5_leg_from_fourth_field (key : String)
    (h5 : (fieldsOf key).length = 5) :
    ∃ m, parse_call_file_name key = some m ∧ m.file_type = FileType.audio ∧
      (((pyStartsWith ((fieldsOf key).getD 3 "") "2A" ||
         pyStartsWith ((fieldsOf key).getD 3 "") "A") = true → m.leg = some "A") ∧
       ((pyStartsWith ((fieldsOf key).getD 3 "") "2B" ||
         pyStartsWith ((fieldsOf key).getD 3 "") "B") = true → m.leg = some "B") ∧
       ((pyStartsWith ((fieldsOf key).getD 3 "") "2A" ||
         pyStartsWith ((fieldsOf key).getD 3 "") "A") = false →
        (pyStartsWith ((fieldsOf key).getD 3 "") "2B" ||
         pyStartsWith ((fieldsOf key).getD 3 "") "B") = false → m.leg = none)) := by
  obtain ⟨t, c, p, lg, f, hf⟩ := exists_five _ h5
  refine ⟨_, parse_eq_audio key t c p lg f hf, rfl, ?_⟩
  have hlg : (fieldsOf key).getD 3 "" = lg := by rw [hf]; rfl
  rw [hlg]
  exact leg_letter_cases lg

/-- Witness for C5: a concrete Audio key whose 4th field "2B99" begins
with "2B" resolves to leg B. -/
theorem claim5_witness :
    ∃ m, parse_call_file_name "t~c~555~2B99~f.mp3" = some m ∧
      m.file_type = FileType.audio ∧ m.leg = some "B" := by
  obtain ⟨m, hp, hft, hcases⟩ := claim5_leg_from_fourth_field "t~c~555~2B99~f.mp3" (by decide)
  exact ⟨m, hp, hft, hcases.2.1 (by decide)⟩

/-- C6 (counterexample): the leading field "2025-1-5T1:2:3Z" does NOT
match the fixed pattern YYYY-MM-DDTHH:MM:SSZ (month, day, hour and minute
are not zero-padded to two digits), yet `datetime.strptime` with
"%Y-%m-%dT%H:%M:%SZ" accepts it — CPython's directives take one- or
two-digit numbers — so the record carries a present timestamp instead of
the absent one the claim requires for non-matching fields. -/
theorem claim6_counterexample :
    spec_strict_pattern "2025-1-5T1:2:3Z" = false ∧
    parse_call_file_name "2025-1-5T1:2:3Z~u.json" =
      some ⟨FileType.transcription, none, "u", none, none,
        some ⟨2025, 1, 5, 1, 2, 3⟩, "", ".json"⟩ := by
  decide

/-- C6 (amended): for every key whose leaf splits into exactly 5 or
exactly 2 `~`-fields, the parse always produces the full metadata record,
with the timestamp exactly the result of `strptime`'s lenient
"%Y-%m-%dT%H:%M:%SZ" parse of the leading field — absent when that parse
fails, the parsed instant when it succeeds (strptime also accepts
unpadded one-digit month/day/hour/minute/second and lowercase t/z) — and
a timestamp failure never aborts the extraction of the remaining
fields. -/
theorem claim6_timestamp_never_aborts (key : String)
    (h : (fieldsOf key).length = 5 ∨ (fieldsOf key).length = 2) :
    ∃ m, parse_call_file_name key = some m ∧
      m.timestamp = strptime_iso ((fieldsOf key).getD 0 "") ∧
      m.file_uuid = file_uuid_of ((fieldsOf key).getLastD "") ∧
      m.extension = extension_of ((fieldsOf key).getLastD "") := by
  rcases h with h5 | h2
  · obtain ⟨t, c, p, lg, f, hf⟩ := exists_five _ h5
    refine ⟨_, parse_eq_audio key t c p lg f hf, ?_, ?_, ?_⟩ <;> rw [hf] <;> rfl
  · obtain ⟨t, f, hf⟩ := exists_two _ h2
    refine ⟨_, parse_eq_trans key t f hf, ?_, ?_, ?_⟩ <;> rw [hf] <;> rfl

/-- Witness for C6: a key whose leading field "bad" fails the timestamp
parse still yields a record, with the timestamp absent. -/
theorem claim6_witness :
    ∃ m, parse_call_file_name "bad~u.json" = some m ∧ m.timestamp = none := by
  obtain ⟨m, hp, ht, _⟩ := claim6_timestamp_never_aborts "bad~u.json" (Or.inr (by decide))
  exact ⟨m, hp, ht.trans (by decide)⟩

/-- C7: `parse_call_file_name` is total — on every input string it
terminates with either none (not a call file) or a metadata record; the
embedding is a total Lean function because nothing in the Python body can
raise: indexing is guarded by the length tests and the timestamp parse is
wrapped in its own try/except. -/
theorem claim7_parse_total (key : String) :
    (is_call_file key = false ∧ parse_call_file_name key = none) ∨
    (is_call_file key = true ∧ ∃ m, parse_call_file_name key = some m) := by
  cases hp : parse_call_file_name key with
  | none => exact Or.inl ⟨by simp [is_call_file, hp], rfl⟩
  | some m => exact Or.inr ⟨by simp [is_call_file, hp], m, rfl⟩

/-- C8: when the target parses as a Transcription its call_uuid is absent,
and every Audio candidate produced by the parser carries a present (some)
call_uuid string, so the audio-match condition can never hold: over any
pool of keys with parser-derived metadata, the legA and legB slots stay
empty. -/
theorem claim8_transcription_target_no_legs (key : String) (m : CallMetadata)
    (pool : List String) (hp : parse_call_file_name key = some m)
    (ht : m.file_type = FileType.transcription) :
    (find_related_files m.call_uuid m.file_uuid
        (pool.map (fun k => S3File.mk k (parse_call_file_name k)))).leg_a = none ∧
    (find_related_files m.call_uuid m.file_uuid
        (pool.map (fun k => S3File.mk k (parse_call_file_name k)))).leg_b = none := by
  have hcu : m.call_uuid = none := (parse_file_type_call_uuid key m hp).2 ht
  have hA : (pool.map (fun k => S3File.mk k (parse_call_file_name k))).filter
      (isAudioMatchA m.call_uuid) = [] := by
    rw [List.filter_eq_nil_iff]
    intro f hf
    obtain ⟨k, _, rfl⟩ := List.mem_map.mp hf
    cases hpk : parse_call_file_name k with
    | none => simp [isAudioMatchA, hpk]
    | some m2 =>
      by_cases hft : m2.file_type = FileType.audio
      · obtain ⟨c, hc⟩ := (parse_file_type_call_uuid k m2 hpk).1 hft
        simp [isAudioMatchA, hpk, hc, hcu]
      · simp [isAudioMatchA, hpk, hft]
  have hB : (pool.map (fun k => S3File.mk k (parse_call_file_name k))).filter
      (isAudioMatchB m.call_uuid) = [] := by
    rw [List.filter_eq_nil_iff]
    intro f hf
    obtain ⟨k, _, rfl⟩ := List.mem_map.mp hf
    cases hpk : parse_call_file_name k with
    | none => simp [isAudioMatchB, hpk]
    | some m2 =>
      by_cases hft : m2.file_type = FileType.audio
      · obtain ⟨c, hc⟩ := (parse_file_type_call_uuid k m2 hpk).1 hft
        simp [isAudioMatchB, hpk, hc, hcu]
      · simp [isAudioMatchB, hpk, hft]
  exact ⟨by rw [find_leg_a, hA]; rfl, by rw [find_leg_b, hB]; rfl⟩

/-- Witness for C8: a transcription target "t~f1.json" against a pool that
contains a leg-A audio file with the same file uuid fills neither leg
slot. -/
theorem claim8_witness :
    (find_related_files none "f1"
        (["t~c~5~A~f1.mp3"].map (fun k => S3File.mk k (parse_call_file_name k)))).leg_a =
      none ∧
    (find_related_files none "f1"
        (["t~c~5~A~f1.mp3"].map (fun k => S3File.mk k (parse_call_file_name k)))).leg_b =
      none :=
  claim8_transcription_target_no_legs "t~f1.json"
    ⟨FileType.transcription, none, "f1", none, none, none, "", ".json"⟩
    ["t~c~5~A~f1.mp3"] (by decide) rfl

/-- C9: no syntactic validation of the UUID-typed fields — a 5-field leaf
always parses with the 2nd field as call_uuid verbatim and the 5th field's
before-first-dot part as file_uuid, a 2-field leaf always parses with the
2nd field's before-first-dot part as file_uuid, whatever those strings
contain; field count alone decides acceptance. -/
theorem claim9_no_uuid_validation (key : String) :
    ((fieldsOf key).length = 5 → ∃ m, parse_call_file_name key = some m ∧
      m.call_uuid = some ((fieldsOf key).getD 1 "") ∧
      m.file_uuid = file_uuid_of ((fieldsOf key).getD 4 "") ∧
      m.phone_number = some ((fieldsOf key).getD 2 "")) ∧
    ((fieldsOf key).length = 2 → ∃ m, parse_call_file_name key = some m ∧
      m.file_uuid = file_uuid_of ((fieldsOf key).getD 1 "")) := by
  constructor
  · intro h5
    obtain ⟨t, c, p, lg, f, hf⟩ := exists_five _ h5
    refine ⟨_, parse_eq_audio key t c p lg f hf, ?_, ?_, ?_⟩ <;> rw [hf] <;> rfl
  · intro h2
    obtain ⟨t, f, hf⟩ := exists_two _ h2
    exact ⟨_, parse_eq_trans key t f hf, by rw [hf]; rfl⟩

/-- Witness for C9: a key whose identifier fields are plainly not UUIDs
(spaces, punctuation) still parses, with the fields taken verbatim. -/
theorem claim9_witness :
    ∃ m, parse_call_file_name "t~not a uuid!~ph~X~we ird.mp3" = some m ∧
      m.call_uuid = some "not a uuid!" ∧ m.file_uuid = "we ird" := by
  obtain ⟨m, hp, hc, hfu, _⟩ :=
    (claim9_no_uuid_validation "t~not a uuid!~ph~X~we ird.mp3").1 (by decide)
  exact ⟨m, hp, hc.trans (by decide), hfu.trans (by decide)⟩

/-- C10: `parse_call_file_name` and `find_related_files` are deterministic
pure functions — equal arguments always give equal results; in the
embedding both are Lean functions of their arguments alone, with no state. -/
theorem claim10_deterministic (k1 k2 : String) (cu1 cu2 : Option String)
    (fu1 fu2 : String) (l1 l2 : List S3File) (hk : k1 = k2) (hcu : cu1 = cu2)
    (hfu : fu1 = fu2) (hl : l1 = l2) :
    parse_call_file_name k1 = parse_call_file_name k2 ∧
    find_related_files cu1 fu1 l1 = find_related_files cu2 fu2 l2 := by
  subst hk; subst hcu; subst hfu; subst hl
  exact ⟨rfl, rfl⟩

/-- Witness for C10: determinism instantiated at concrete arguments. -/
theorem claim10_witness :
    parse_call_file_name "t~u.json" = parse_call_file_name "t~u.json" ∧
    find_related_files (some "c") "f" [] = find_related_files (some "c") "f" [] :=
  claim10_deterministic "t~u.json" "t~u.json" (some "c") (some "c") "f" "f" [] []
    rfl rfl rfl rfl
